import Mathlib

/-!
Verification of the obsidian-claude-bridge plugin core: the CLI argument
builder, the JSON response parser with its priority-ordered extraction
chain (src/claude-service.ts), the frontmatter session store
(src/session-manager.ts), and the command execution lifecycle
(BaseCommand.execute).

The TypeScript code is shallowly embedded: JSON/JavaScript runtime values
become the inductive `Json` (with an `undefined` constructor for JavaScript's
`undefined`, which is what property access on a missing key yields),
JavaScript truthiness becomes `Json.truthy`, and each source function
becomes a Lean function of the same name. `JSON.parse` is a platform
primitive, not repository code; functions that consume its output take the
parse outcome (`Option Json`, `none` meaning the parse threw) or a
parse function as an explicit argument.
-/

namespace ClaudeBridge

/-- Model of a JavaScript runtime value as manipulated by the plugin.
`undefined` models JavaScript `undefined` (the result of reading a missing
property); the remaining constructors are the JSON values. Object fields
keep their insertion order, as JavaScript objects do. -/
inductive Json where
  | undefined
  | null
  | bool (b : Bool)
  | num (n : Int)
  | str (s : String)
  | arr (elems : List Json)
  | obj (fields : List (String × Json))

/-- Property access `v[key]` as the source performs it (always behind a
truthiness or optional-chaining guard): a missing key, or a receiver that
is not an object, yields `undefined`. -/
def Json.getField : Json → String → Json
  | .obj fields, key =>
    match fields.find? (fun p => p.1 == key) with
    | some p => p.2
    | none => .undefined
  | _, _ => .undefined

/-- JavaScript truthiness of a runtime value. -/
def Json.truthy : Json → Bool
  | .undefined => false
  | .null => false
  | .bool b => b
  | .num n => n != 0
  | .str s => s != ""
  | .arr _ => true
  | .obj _ => true

/-- Strict equality `v === s` against a string literal: true exactly when
the value is that string. -/
def Json.isStr : Json → String → Bool
  | .str t, s => t == s
  | _, _ => false

/-- Elements of an array value. The source only iterates (`for ... of`)
values it received as JSON arrays; on a non-array the model yields no
elements. -/
def Json.elems : Json → List Json
  | .arr xs => xs
  | _ => []

/-- JavaScript `a || b`. -/
def jsOr (a b : Json) : Json := if a.truthy then a else b

/-- JavaScript `a ?? b` (nullish coalescing). -/
def jsNullish (a b : Json) : Json :=
  match a with
  | .undefined => b
  | .null => b
  | v => v

/-- Lower hex digit for escape sequences. -/
def hexDigitChar (n : Nat) : Char :=
  if n < 10 then Char.ofNat (48 + n) else Char.ofNat (87 + n)

/-- Escape of one character inside a JSON string literal, as
`JSON.stringify` produces it. -/
def escapeJsonChar (c : Char) : String :=
  if c = '"' then "\\\""
  else if c = '\\' then "\\\\"
  else if c = '\n' then "\\n"
  else if c = '\r' then "\\r"
  else if c = '\t' then "\\t"
  else if c.toNat = 8 then "\\b"
  else if c.toNat = 12 then "\\f"
  else if c.toNat < 32 then
    String.mk ['\\', 'u', '0', '0', hexDigitChar (c.toNat / 16), hexDigitChar (c.toNat % 16)]
  else String.singleton c

/-- A JSON string literal with quotes and escapes, as `JSON.stringify`
produces it. -/
def escapeJsonString (s : String) : String :=
  "\"" ++ String.join (s.data.map escapeJsonChar) ++ "\""

mutual

/-- Compact (no-whitespace) serialization of a value, modelling
`JSON.stringify`. The `undefined` case is unreachable from parsed JSON and is
rendered as `null` (what `JSON.stringify` emits for `undefined` inside an
array). -/
def Json.stringifyCompact : Json → String
  | .undefined => "null"
  | .null => "null"
  | .bool b => if b then "true" else "false"
  | .num n => toString n
  | .str s => escapeJsonString s
  | .arr xs => "[" ++ Json.stringifyList xs ++ "]"
  | .obj fs => "\x7b" ++ Json.stringifyFields fs ++ "\x7d"

/-- Comma-separated serialization of array elements. -/
def Json.stringifyList : List Json → String
  | [] => ""
  | [x] => x.stringifyCompact
  | x :: y :: rest => x.stringifyCompact ++ "," ++ Json.stringifyList (y :: rest)

/-- Comma-separated serialization of object fields. -/
def Json.stringifyFields : List (String × Json) → String
  | [] => ""
  | [(k, v)] => escapeJsonString k ++ ":" ++ v.stringifyCompact
  | (k, v) :: f :: rest =>
    escapeJsonString k ++ ":" ++ v.stringifyCompact ++ "," ++ Json.stringifyFields (f :: rest)

end

/-- Elements of a JavaScript array rendered for `Array.prototype.join`:
`null` and `undefined` become the empty string, nested arrays flatten with
commas, objects render as their object tag. -/
def Json.jsToStringElems : List Json → String
  | [] => ""
  | x :: rest =>
    (match x with
     | .undefined => ""
     | .null => ""
     | .bool b => if b then "true" else "false"
     | .num n => toString n
     | .str s => s
     | .arr xs => Json.jsToStringElems xs
     | .obj _ => "[object Object]")
    ++ (if rest.isEmpty then "" else ",") ++ Json.jsToStringElems rest

/-- JavaScript `String(v)` coercion. -/
def Json.jsToString : Json → String
  | .undefined => "undefined"
  | .null => "null"
  | .bool b => if b then "true" else "false"
  | .num n => toString n
  | .str s => s
  | .arr xs => Json.jsToStringElems xs
  | .obj _ => "[object Object]"

/-- Truthiness of a TypeScript `string | undefined` option field. -/
def optStrTruthy : Option String → Bool
  | some s => s != ""
  | none => false

/-!
Embedding of src/claude-service.ts.
-/

/-- Source constant `MIN_TURNS_WITH_SCHEMA`: a schema-based call needs two
turns (tool call plus tool result). -/
def MIN_TURNS_WITH_SCHEMA : Nat := 2

/-- Source constant `DEFAULT_TURNS`: a plain prompt-to-response call is a
single turn. -/
def DEFAULT_TURNS : Nat := 1

/-- Options of one service invocation (interface `ClaudeCallOptions` in
src/types.ts). The schema field is a `Record<string, unknown>`, i.e. an
object, so it is modelled as an optional field list; `maxTokens` is a
JavaScript number. -/
structure ClaudeCallOptions where
  prompt : String
  model : Option String := none
  sessionId : Option String := none
  systemPrompt : Option String := none
  jsonSchema : Option (List (String × Json)) := none
  maxTokens : Option Int := none

/-- The `--max-turns` portion appended last by `buildArgs`: present only
when `options.maxTokens` is truthy, with the value chosen by whether a
schema was supplied. -/
def turnsSegment (options : ClaudeCallOptions) : List String :=
  match options.maxTokens with
  | some n =>
    if n != 0 then
      ["--max-turns",
        toString (if options.jsonSchema.isSome then MIN_TURNS_WITH_SCHEMA else DEFAULT_TURNS)]
    else []
  | none => []

/-- The argument list of `buildArgs` before the `--max-turns` clause: the
fixed prompt/output-format part followed by the four conditional
segments, in source order. -/
def buildArgsNoTurns (options : ClaudeCallOptions) : List String :=
  ["-p", options.prompt, "--output-format", "json"]
  ++ (match options.model with
      | some m => if m != "" then ["--model", m] else []
      | none => [])
  ++ (match options.sessionId with
      | some s => if s != "" then ["-r", s] else []
      | none => [])
  ++ (match options.systemPrompt with
      | some s => if s != "" then ["--system-prompt", s] else []
      | none => [])
  ++ (match options.jsonSchema with
      | some schema => ["--json-schema", (Json.obj schema).stringifyCompact]
      | none => [])

/-- Embedding of `buildArgs` (src/claude-service.ts): the argument list is
built by appending each conditional segment in order, ending with the
turns clause. -/
def buildArgs (options : ClaudeCallOptions) : List String :=
  buildArgsNoTurns options ++ turnsSegment options

/-- The service's parsed response (interface `ClaudeResponse`): the
session id is `string | null`, the text is the value produced by the
extraction chain, and `raw` is the original message array. -/
structure ClaudeResponse where
  sessionId : Json
  text : Json
  raw : List Json

/-- Predicate of the source line
`messages.find((m) => m.type === "system" && m.session_id)`. -/
def isSystemWithSession (m : Json) : Bool :=
  (m.getField "type").isStr "system" && (m.getField "session_id").truthy

/-- Session extraction of `parseResponse`:
`const sessionId = systemMsg?.session_id ?? null`. -/
def sessionIdOf (messages : List Json) : Json :=
  match messages.find? isSystemWithSession with
  | some m => jsNullish (m.getField "session_id") Json.null
  | none => Json.null

/-- The source line
`const resultMsg = [...messages].reverse().find((m) => m.type === "result")`
followed by the access `resultMsg?.result`. -/
def resultFieldOf (messages : List Json) : Json :=
  match messages.reverse.find? (fun m => (m.getField "type").isStr "result") with
  | some m => m.getField "result"
  | none => Json.undefined

/-- Inner loop of `extractStructuredOutput`: the first content block with
`block.type === "tool_use" && block.name === "StructuredOutput" && block.input`,
yielding its `input`. -/
def findStructBlock : List Json → Option Json
  | [] => none
  | block :: rest =>
    if (block.getField "type").isStr "tool_use"
        && (block.getField "name").isStr "StructuredOutput"
        && (block.getField "input").truthy then
      some (block.getField "input")
    else findStructBlock rest

/-- Embedding of `extractStructuredOutput` (src/claude-service.ts): scan
messages in order, skipping non-assistant messages and assistant messages
without a truthy content array, and return the compact serialization of
the first matching block's input; `null` when none matches. -/
def extractStructuredOutput : List Json → Json
  | [] => Json.null
  | msg :: rest =>
    if !(msg.getField "type").isStr "assistant" then extractStructuredOutput rest
    else if !((msg.getField "message").getField "content").truthy then
      extractStructuredOutput rest
    else
      match findStructBlock ((msg.getField "message").getField "content").elems with
      | some input => Json.str input.stringifyCompact
      | none => extractStructuredOutput rest

/-- Inner loop of `extractTextFromContent`: push the truthy `text` field
of each `text`-type block (`block.type === "text" && block.text`). -/
def blockTexts : List Json → List Json
  | [] => []
  | block :: rest =>
    if (block.getField "type").isStr "text" && (block.getField "text").truthy then
      block.getField "text" :: blockTexts rest
    else blockTexts rest

/-- The `textBlocks` array built by `extractTextFromContent`: over
assistant messages with truthy content (the `filter` plus the redundant
in-loop guard of the source), the truthy `text` fields of `text`-type
blocks, in order. -/
def textBlocksOf : List Json → List Json
  | [] => []
  | m :: rest =>
    if (m.getField "type").isStr "assistant"
        && ((m.getField "message").getField "content").truthy then
      blockTexts ((m.getField "message").getField "content").elems ++ textBlocksOf rest
    else textBlocksOf rest

/-- JavaScript `Array.prototype.join("\n")` over an array of strings. -/
def joinSep : List String → String
  | [] => ""
  | [s] => s
  | s :: y :: rest => s ++ "\n" ++ joinSep (y :: rest)

/-- Embedding of `extractTextFromContent` (src/claude-service.ts):
`textBlocks.join("\n") || "(No text in response)"`. -/
def extractTextFromContent (messages : List Json) : String :=
  if joinSep ((textBlocksOf messages).map Json.jsToString) == "" then "(No text in response)"
  else joinSep ((textBlocksOf messages).map Json.jsToString)

/-- The extraction chain of `parseResponse`:
`extractStructuredOutput(messages) || resultMsg?.result || extractTextFromContent(messages)`. -/
def textOf (messages : List Json) : Json :=
  jsOr (jsOr (extractStructuredOutput messages) (resultFieldOf messages))
    (Json.str (extractTextFromContent messages))

/-- The two failure modes of `parseResponse`, with their distinct source
messages. -/
inductive ParseError where
  | invalidJson
  | emptyArray
deriving DecidableEq

/-- Embedding of `parseResponse` (src/claude-service.ts). The argument is
the outcome of `JSON.parse(raw)` (`none` when the parse throws): a
non-array value is wrapped into a one-element array, an empty array is
rejected, and otherwise the session id and text are extracted and the raw
array passed through. -/
def parseResponse (parsed : Option Json) : Except ParseError ClaudeResponse :=
  match parsed with
  | none => .error .invalidJson
  | some top =>
    let messages := match top with
      | .arr xs => xs
      | other => [other]
    if messages.isEmpty then .error .emptyArray
    else .ok ⟨sessionIdOf messages, textOf messages, messages⟩

/-!
Embedding of src/session-manager.ts. A note's frontmatter is the ordered
field list handed to `processFrontMatter` callbacks; the metadata cache
read by `getSessionId` is assumed synchronized with it.
-/

/-- Source constant `SESSION_KEY`. -/
def SESSION_KEY : String := "claude_session"

/-- A note's frontmatter: ordered key/value fields. -/
abbrev FrontMatter := List (String × Json)

/-- Frontmatter field read `fm[key]`, `none` meaning the key is absent
(JavaScript `undefined`). -/
def fmLookup : FrontMatter → String → Option Json
  | [], _ => none
  | (k, v) :: rest, key => if k == key then some v else fmLookup rest key

/-- JavaScript property assignment `fm[key] = v`: overwrite the existing
field in place, or append a new one. -/
def fmSet : FrontMatter → String → Json → FrontMatter
  | [], key, v => [(key, v)]
  | (k, w) :: rest, key, v =>
    if k == key then (k, v) :: rest else (k, w) :: fmSet rest key v

/-- JavaScript `delete fm[key]`. -/
def fmDel : FrontMatter → String → FrontMatter
  | [], _ => []
  | (k, w) :: rest, key =>
    if k == key then fmDel rest key else (k, w) :: fmDel rest key

/-- Embedding of `SessionManager.getSessionId`: read the session field and
return it only when it is a string (`typeof value === "string" ? value : null`). -/
def getSessionId (fm : FrontMatter) : Option String :=
  match fmLookup fm SESSION_KEY with
  | some (Json.str s) => some s
  | _ => none

/-- Embedding of `SessionManager.setSessionId`: the `processFrontMatter`
callback performs `fm[SESSION_KEY] = sessionId`. -/
def setSessionId (fm : FrontMatter) (sessionId : String) : FrontMatter :=
  fmSet fm SESSION_KEY (Json.str sessionId)

/-- Embedding of `SessionManager.clearSession`: the `processFrontMatter`
callback performs `delete fm[SESSION_KEY]`. -/
def clearSession (fm : FrontMatter) : FrontMatter :=
  fmDel fm SESSION_KEY

/-!
Embedding of `BaseCommand.execute` (src/commands/base-command.ts) as run
by the expand command, which supplies the schema
`z.object(\x7b text: z.string() \x7d)` (TextResponseSchema in
src/schemas.ts). The editor document is modelled as the text around the
current selection plus the selection itself.
-/

/-- Editor document state: text before the selection, the selected text,
text after it. -/
structure EditorDoc where
  beforeSel : String
  selection : String
  afterSel : String

/-- Obsidian `editor.replaceSelection(t)`: the selection is replaced by
`t` and collapses. -/
def replaceSelection (doc : EditorDoc) (t : String) : EditorDoc :=
  ⟨doc.beforeSel ++ t, "", doc.afterSel⟩

/-- Validation by the expand command's Zod schema
`z.object(\x7b text: z.string() \x7d)`: accepts an object whose `text`
field is a string and yields that string; rejects anything else. -/
def expandValidate (j : Json) : Option String :=
  match j with
  | .obj _ =>
    match j.getField "text" with
    | .str s => some s
    | _ => none
  | _ => none

/-- State after one run of `execute`: the note's frontmatter, the editor
document, and whether the command completed (reached the success notice)
rather than landing in the catch block. -/
structure ExecOutcome where
  frontmatter : FrontMatter
  doc : EditorDoc
  succeeded : Bool

/-- Embedding of the try/catch body of `BaseCommand.execute` (lines
141-175) for the expand command. `jsonParseFn` stands for the runtime's
`JSON.parse` applied to `response.text` (`none` meaning it throws), and
`callResult` is the settled promise of `callClaude` (`Except.error` when
it rejected: spawn failure, abnormal exit, or malformed output). The
source persists the session id first, then parses and validates the
response text, then renders; any throw lands in the catch block, which
only shows a notice. -/
def executeExpand (jsonParseFn : String → Option Json)
    (callResult : Except String ClaudeResponse)
    (fm : FrontMatter) (doc : EditorDoc) : ExecOutcome :=
  match callResult with
  | .error _ => ⟨fm, doc, false⟩
  | .ok response =>
    let fm1 := if response.sessionId.truthy
      then setSessionId fm response.sessionId.jsToString
      else fm
    match jsonParseFn response.text.jsToString with
    | none => ⟨fm1, doc, false⟩
    | some parsed =>
      match expandValidate parsed with
      | none => ⟨fm1, doc, false⟩
      | some out => ⟨fm1, replaceSelection doc out, true⟩

/-- A response in which the CLI call succeeded, returned a session id, and
produced a text that is valid JSON but fails the expand schema (no `text`
string field). -/
def c1Response : ClaudeResponse :=
  ⟨Json.str "abc123", Json.str "\x7b\"wrong\":1\x7d", []⟩

/-- The runtime `JSON.parse` at the only string this run parses:
`JSON.parse("\x7b\"wrong\":1\x7d")` yields the object with the single
field `wrong: 1`. -/
def c1JsonParse : String → Option Json := fun s =>
  if s == "\x7b\"wrong\":1\x7d" then some (Json.obj [("wrong", Json.num 1)]) else none

/-- First structured-output match: scanning messages in original order,
the `input` of the first `tool_use` block named `StructuredOutput` with a
truthy input, among assistant messages' content blocks. -/
def findFirstStructInput : List Json → Option Json
  | [] => none
  | msg :: rest =>
    if (msg.getField "type").isStr "assistant" then
      match findStructBlock ((msg.getField "message").getField "content").elems with
      | some input => some input
      | none => findFirstStructInput rest
    else findFirstStructInput rest

/-- A message whose `session_id` field is either absent, null, or a
string, as the message schema types it. -/
def sessionFieldWellTyped (m : Json) : Bool :=
  match m.getField "session_id" with
  | .undefined => true
  | .null => true
  | .str _ => true
  | _ => false

/-- The spec's wording of the session-extraction predicate: a message of
type `system` carrying a non-empty session-identifier string. -/
def claimSessionPred (m : Json) : Bool :=
  (m.getField "type").isStr "system" &&
    (match m.getField "session_id" with
     | .str s => s != ""
     | _ => false)

/-- A content block whose `text` field is either absent, null, or a
string, as the block schema types it. -/
def textFieldWellTyped (block : Json) : Bool :=
  match block.getField "text" with
  | .undefined => true
  | .null => true
  | .str _ => true
  | _ => false

/-- Modelled from the spec: the text fields collected by the
assistant-text fallback as the claim words it, i.e. the `text` field of
every `text`-type block, whether empty or not (inner block scan). -/
def specAllBlockTexts : List Json → List String
  | [] => []
  | block :: rest =>
    if (block.getField "type").isStr "text" then
      match block.getField "text" with
      | .str s => s :: specAllBlockTexts rest
      | _ => specAllBlockTexts rest
    else specAllBlockTexts rest

/-- Modelled from the spec: the `text` field of every `text`-type content
block across every assistant-type message, in original order. -/
def specAllTextFields : List Json → List String
  | [] => []
  | m :: rest =>
    if (m.getField "type").isStr "assistant" then
      specAllBlockTexts ((m.getField "message").getField "content").elems
        ++ specAllTextFields rest
    else specAllTextFields rest

/-- The non-empty `text` fields of `text`-type blocks (inner block scan),
matching what the code collects on well-typed blocks. -/
def specNonEmptyBlockTexts : List Json → List String
  | [] => []
  | block :: rest =>
    if (block.getField "type").isStr "text" then
      match block.getField "text" with
      | .str s =>
        if s != "" then s :: specNonEmptyBlockTexts rest else specNonEmptyBlockTexts rest
      | _ => specNonEmptyBlockTexts rest
    else specNonEmptyBlockTexts rest

/-- The non-empty `text` fields of `text`-type content blocks across
assistant-type messages, in original order. -/
def specNonEmptyTextFields : List Json → List String
  | [] => []
  | m :: rest =>
    if (m.getField "type").isStr "assistant" then
      specNonEmptyBlockTexts ((m.getField "message").getField "content").elems
        ++ specNonEmptyTextFields rest
    else specNonEmptyTextFields rest

/-- A result message carrying the string "hello", placed before a later
result message carrying the empty string. -/
def c2MsgEarlier : Json :=
  Json.obj [("type", Json.str "result"), ("result", Json.str "hello")]

/-- A trailing result message whose result string is empty. -/
def c2MsgLast : Json :=
  Json.obj [("type", Json.str "result"), ("result", Json.str "")]

/-- Modelled from the spec: the plain-result fallback as the claim words
it, scanning backward (last to first) for the first result-type message
carrying a non-empty result string. -/
def specBackwardResultScan (messages : List Json) : Option String :=
  messages.reverse.findSome? (fun m =>
    if (m.getField "type").isStr "result" then
      match m.getField "result" with
      | .str s => if s != "" then some s else none
      | _ => none
    else none)

/-- A StructuredOutput tool_use block with input object text: "hello". -/
def c4Block : Json :=
  Json.obj [("type", Json.str "tool_use"), ("name", Json.str "StructuredOutput"),
    ("input", Json.obj [("text", Json.str "hello")])]

/-- A message array holding the structured block plus a result message
that should be ignored by the priority order. -/
def c4Msgs : List Json :=
  [Json.obj [("type", Json.str "assistant"),
    ("message", Json.obj [("role", Json.str "assistant"),
      ("content", Json.arr [c4Block])])],
   Json.obj [("type", Json.str "result"), ("result", Json.str "ignored")]]

/-- An assistant message whose only text block carries the empty string. -/
def c7Msg : Json :=
  Json.obj [("type", Json.str "assistant"),
    ("message", Json.obj [("role", Json.str "assistant"),
      ("content", Json.arr [Json.obj [("type", Json.str "text"), ("text", Json.str "")]])])]

/-- An assistant message with two text blocks "A" and "B". -/
def c7wMsg : Json :=
  Json.obj [("type", Json.str "assistant"),
    ("message", Json.obj [("role", Json.str "assistant"),
      ("content", Json.arr
        [Json.obj [("type", Json.str "text"), ("text", Json.str "A")],
         Json.obj [("type", Json.str "text"), ("text", Json.str "B")]])])]

/-- Two system messages with distinct session ids, followed by a result
message. -/
def c5Msgs : List Json :=
  [Json.obj [("type", Json.str "system"), ("session_id", Json.str "s1")],
   Json.obj [("type", Json.str "system"), ("session_id", Json.str "s2")],
   Json.obj [("type", Json.str "result"), ("result", Json.str "done")]]

/-- Absence of the literal "--max-turns" among the option fields that flow
into the argument list verbatim. -/
def noMaxTurnsCollision (options : ClaudeCallOptions) : Prop :=
  options.prompt ≠ "--max-turns"
  ∧ (∀ s, options.model = some s → s ≠ "--max-turns")
  ∧ (∀ s, options.sessionId = some s → s ≠ "--max-turns")
  ∧ (∀ s, options.systemPrompt = some s → s ≠ "--max-turns")

/-- Options with a schema and a positive token budget, as the expand
command builds them. -/
def c3Options : ClaudeCallOptions :=
  { prompt := "Expand this", jsonSchema := some [("type", Json.str "object")],
    maxTokens := some 50000 }

/-!
Supporting lemmas.
-/

/-- A falsy value has no elements to iterate. -/
lemma falsy_elems (j : Json) (h : j.truthy = false) : j.elems = [] := by
  cases j <;> simp_all [Json.truthy, Json.elems]

/-- A join of non-empty strings over a non-empty list is non-empty. -/
lemma joinSep_ne_empty (l : List String) (h : ∀ s ∈ l, s ≠ "") (hne : l ≠ []) :
    joinSep l ≠ "" := by
  match l with
  | [] => exact absurd rfl hne
  | [s] => exact h s (List.mem_cons_self ..)
  | s :: y :: rest =>
    intro heq
    have hlen := congrArg String.length heq
    rw [joinSep] at hlen
    rw [String.length_append, String.length_append] at hlen
    rw [show ("\n".length) = 1 from rfl, show ("".length) = 0 from rfl] at hlen
    omega

/-- The compact serialization of an object is never the empty string. -/
lemma obj_stringify_ne_empty (fields : List (String × Json)) :
    (Json.obj fields).stringifyCompact ≠ "" := by
  unfold Json.stringifyCompact
  intro h
  have hlen := congrArg String.length h
  rw [String.length_append, String.length_append] at hlen
  rw [show ("\x7b".length) = 1 from rfl, show ("\x7d".length) = 1 from rfl,
    show ("".length) = 0 from rfl] at hlen
  omega

/-- The structured-output extraction is the compact serialization of the
first matching block's input, when one exists. -/
lemma extractStructuredOutput_eq_find (messages : List Json) :
    extractStructuredOutput messages =
      match findFirstStructInput messages with
      | some input => Json.str input.stringifyCompact
      | none => Json.null := by
  induction messages with
  | nil => rfl
  | cons msg rest ih =>
    unfold extractStructuredOutput findFirstStructInput
    cases hassist : (msg.getField "type").isStr "assistant"
    · simp [hassist, ih]
    · cases hcontent : ((msg.getField "message").getField "content").truthy
      · have he : ((msg.getField "message").getField "content").elems = [] :=
          falsy_elems _ hcontent
        simp [hassist, hcontent, he, findStructBlock, ih]
      · cases hfind : findStructBlock ((msg.getField "message").getField "content").elems
        · simp [hassist, hcontent, hfind, ih]
        · simp [hassist, hcontent, hfind]

/-- On well-typed blocks the code's inner collection is exactly the
non-empty string text fields. -/
lemma blockTexts_spec (blocks : List Json)
    (hwt : ∀ b ∈ blocks, textFieldWellTyped b = true) :
    (blockTexts blocks).map Json.jsToString = specNonEmptyBlockTexts blocks := by
  induction blocks with
  | nil => rfl
  | cons b rest ih =>
    have hb := hwt b (List.mem_cons_self ..)
    have hr := fun x hx => hwt x (List.mem_cons_of_mem _ hx)
    unfold blockTexts specNonEmptyBlockTexts
    cases htype : (b.getField "type").isStr "text"
    · simp [htype, ih hr]
    · unfold textFieldWellTyped at hb
      cases hfield : b.getField "text"
      case str t =>
        simp only [Bool.true_and, Json.truthy]
        by_cases ht : t = ""
        · simp [ht, ih hr]
        · simp [bne_iff_ne.mpr ht, ih hr, Json.jsToString]
      all_goals (rw [hfield] at hb; simp_all [Json.truthy, ih hr])

/-- On well-typed blocks the code's `textBlocks` array, coerced to
strings, is exactly the non-empty string text fields across assistant
messages. -/
lemma textBlocksOf_spec (messages : List Json)
    (hwt : ∀ m ∈ messages, ∀ b ∈ ((m.getField "message").getField "content").elems,
      textFieldWellTyped b = true) :
    (textBlocksOf messages).map Json.jsToString = specNonEmptyTextFields messages := by
  induction messages with
  | nil => rfl
  | cons m rest ih =>
    have hm := hwt m (List.mem_cons_self ..)
    have hr := fun x hx => hwt x (List.mem_cons_of_mem _ hx)
    unfold textBlocksOf specNonEmptyTextFields
    cases hassist : (m.getField "type").isStr "assistant"
    · simp [hassist, ih hr]
    · cases hcontent : ((m.getField "message").getField "content").truthy
      · have he : ((m.getField "message").getField "content").elems = [] :=
          falsy_elems _ hcontent
        simp [hassist, hcontent, he, specNonEmptyBlockTexts, ih hr]
      · simp [hassist, hcontent, List.map_append, blockTexts_spec _ hm, ih hr]

/-- Every collected non-empty text field is indeed non-empty (inner
scan). -/
lemma specNonEmptyBlockTexts_ne (blocks : List Json) :
    ∀ s ∈ specNonEmptyBlockTexts blocks, s ≠ "" := by
  induction blocks with
  | nil => simp [specNonEmptyBlockTexts]
  | cons b rest ih =>
    unfold specNonEmptyBlockTexts
    split
    · split
      · split
        · rename_i t _ ht
          intro s hs
          rcases List.mem_cons.mp hs with h | h
          · subst h; exact bne_iff_ne.mp ht
          · exact ih s h
        · exact ih
      · exact ih
    · exact ih

/-- Every collected non-empty text field is indeed non-empty. -/
lemma specNonEmptyTextFields_ne (messages : List Json) :
    ∀ s ∈ specNonEmptyTextFields messages, s ≠ "" := by
  induction messages with
  | nil => simp [specNonEmptyTextFields]
  | cons m rest ih =>
    intro s hs
    unfold specNonEmptyTextFields at hs
    cases hassist : (m.getField "type").isStr "assistant" <;> rw [hassist] at hs
    · simp only [Bool.false_eq_true, if_false] at hs
      exact ih s hs
    · simp only [if_true, List.mem_append] at hs
      rcases hs with h | h
      · exact specNonEmptyBlockTexts_ne _ s h
      · exact ih s h

/-- Reading the field just written returns the written value. -/
lemma fmLookup_set_same (fm : FrontMatter) (key : String) (v : Json) :
    fmLookup (fmSet fm key v) key = some v := by
  induction fm with
  | nil => simp [fmSet, fmLookup]
  | cons p rest ih =>
    obtain ⟨k, w⟩ := p
    unfold fmSet
    cases hk : k == key
    · simp [fmLookup, hk, ih]
    · simp [fmLookup, hk]

/-- Writing one field does not disturb another key. -/
lemma fmLookup_set_other (fm : FrontMatter) (key k : String) (v : Json)
    (h : k ≠ key) :
    fmLookup (fmSet fm key v) k = fmLookup fm k := by
  induction fm with
  | nil => simp [fmSet, fmLookup, beq_iff_eq, Ne.symm h]
  | cons p rest ih =>
    obtain ⟨k', w⟩ := p
    unfold fmSet
    cases hk : k' == key
    · simp [fmLookup, hk, ih]
    · have : k' ≠ k := fun he => h (he ▸ beq_iff_eq.mp hk)
      simp [fmLookup, beq_iff_eq, beq_iff_eq.mp hk, Ne.symm h, this]

/-- Reading a deleted field returns nothing. -/
lemma fmLookup_del_same (fm : FrontMatter) (key : String) :
    fmLookup (fmDel fm key) key = none := by
  induction fm with
  | nil => rfl
  | cons p rest ih =>
    obtain ⟨k, w⟩ := p
    unfold fmDel
    cases hk : k == key
    · simp [fmLookup, hk, ih]
    · simp [hk, ih]

/-- Deleting one field does not disturb another key. -/
lemma fmLookup_del_other (fm : FrontMatter) (key k : String) (h : k ≠ key) :
    fmLookup (fmDel fm key) k = fmLookup fm k := by
  induction fm with
  | nil => rfl
  | cons p rest ih =>
    obtain ⟨k', w⟩ := p
    unfold fmDel
    cases hk : k' == key
    · simp [fmLookup, hk, ih]
    · have : k' ≠ k := fun he => h (he ▸ beq_iff_eq.mp hk)
      simp [fmLookup, hk, ih, beq_iff_eq, this]

/-- The compact serialization of an object starts with an opening brace,
so it is never the max-turns flag literal. -/
lemma obj_stringify_ne_maxturns (fields : List (String × Json)) :
    (Json.obj fields).stringifyCompact ≠ "--max-turns" := by
  intro he
  have hd := congrArg String.data he
  rw [show (Json.obj fields).stringifyCompact
      = "\x7b" ++ (Json.stringifyFields fields ++ "\x7d") from rfl,
    String.data_append,
    show ("\x7b".data) = [Char.ofNat 123] from rfl,
    show ("--max-turns".data) = ['-','-','m','a','x','-','t','u','r','n','s'] from rfl,
    List.singleton_append] at hd
  injection hd with h1 h2
  exact absurd h1 (by decide)

/-- The max-turns flag literal cannot appear in a flag-plus-value segment
built from another flag and a collision-free field. -/
lemma maxturns_not_mem_opt_segment (flag : String) (o : Option String)
    (hflag : flag ≠ "--max-turns")
    (ho : ∀ s, o = some s → s ≠ "--max-turns") :
    "--max-turns" ∉ (match o with
      | some s => if (s != "") = true then [flag, s] else []
      | none => ([] : List String)) := by
  rcases o with _ | s
  · simp
  · show "--max-turns" ∉ (if (s != "") = true then [flag, s] else [])
    by_cases hse : s = ""
    · simp [hse]
    · rw [if_pos (bne_iff_ne.mpr hse)]
      intro hmem
      rcases List.mem_cons.mp hmem with h | h
      · exact hflag h.symm
      · rcases List.mem_cons.mp h with h | h
        · exact ho s rfl h.symm
        · simp at h

/-- The max-turns flag literal cannot appear in the schema segment: its
own flag differs and a serialized object starts with a brace. -/
lemma maxturns_not_mem_schema_segment (o : Option (List (String × Json))) :
    "--max-turns" ∉ (match o with
      | some schema => ["--json-schema", (Json.obj schema).stringifyCompact]
      | none => ([] : List String)) := by
  rcases o with _ | fs
  · simp
  · show "--max-turns" ∉ ["--json-schema", (Json.obj fs).stringifyCompact]
    intro hmem
    rcases List.mem_cons.mp hmem with h | h
    · exact absurd h (by decide)
    · rcases List.mem_cons.mp h with h | h
      · exact obj_stringify_ne_maxturns fs h.symm
      · simp at h

/-!
Claim theorems.
-/

/-- C1: the claim states that every failure leaves the document unchanged
with no session field written. The code violates this: `execute` persists
the session id before schema validation, so a response whose text fails
the expand schema still writes `claude_session` into the frontmatter,
contradicting the source's own lifecycle comment (validate, then render,
then persist). This theorem evaluates the embedded `execute` at such a
failing input: the run fails, the selection is untouched, yet the
frontmatter gained the session field. -/
theorem execute_writes_session_despite_validation_failure :
    (executeExpand c1JsonParse (.ok c1Response) [] ⟨"", "the cat sat", ""⟩).succeeded = false
    ∧ (executeExpand c1JsonParse (.ok c1Response) [] ⟨"", "the cat sat", ""⟩).frontmatter
        = [("claude_session", Json.str "abc123")]
    ∧ (executeExpand c1JsonParse (.ok c1Response) [] ⟨"", "the cat sat", ""⟩).doc
        = ⟨"", "the cat sat", ""⟩
    ∧ ([("claude_session", Json.str "abc123")] : FrontMatter) ≠ [] := by
  refine ⟨rfl, rfl, rfl, by simp⟩

/-- C2 counterexample: with an earlier result message carrying "hello" and
a later result message carrying the empty string, the spec's backward
scan finds "hello", but the code consults only the last result-type
message and falls through to the sentinel. -/
theorem result_fallback_counterexample :
    extractStructuredOutput [c2MsgEarlier, c2MsgLast] = Json.null
    ∧ specBackwardResultScan [c2MsgEarlier, c2MsgLast] = some "hello"
    ∧ textOf [c2MsgEarlier, c2MsgLast] = Json.str "(No text in response)"
    ∧ Json.str "(No text in response)" ≠ Json.str "hello" := by
  refine ⟨rfl, rfl, rfl, ?_⟩
  intro h
  injection h with h'
  exact absurd h' (by decide)

/-- C2 amended: when structured-output extraction finds nothing, the text
is the `result` field of the last result-type message if that field is
truthy, and otherwise the assistant-text fallback — earlier result
messages are never consulted. -/
theorem textOf_result_fallback (messages : List Json)
    (hstruct : extractStructuredOutput messages = Json.null) :
    textOf messages =
      if (resultFieldOf messages).truthy then resultFieldOf messages
      else Json.str (extractTextFromContent messages) := by
  unfold textOf
  rw [hstruct]
  rfl

/-- C2 amended, witness: on the counterexample array the last result
message's field is empty, so extraction lands on the sentinel. -/
theorem textOf_result_fallback_witness :
    textOf [c2MsgEarlier, c2MsgLast] = Json.str "(No text in response)" := by
  rw [textOf_result_fallback [c2MsgEarlier, c2MsgLast] rfl]
  rfl

/-- C3: with a positive token budget the built argument list ends in a
max-turns flag valued "2" exactly when a schema is supplied and "1"
otherwise; without a budget no turns clause is appended, and (absent
collisions from the free-form fields) the flag does not appear at all. -/
theorem buildArgs_maxTurns_spec (options : ClaudeCallOptions) :
    (∀ n : Int, options.maxTokens = some n → 0 < n →
      buildArgs options = buildArgsNoTurns options
        ++ ["--max-turns", if options.jsonSchema.isSome then "2" else "1"])
    ∧ (options.maxTokens = none → buildArgs options = buildArgsNoTurns options)
    ∧ (options.maxTokens = none → noMaxTurnsCollision options →
        "--max-turns" ∉ buildArgs options) := by
  refine ⟨?_, ?_, ?_⟩
  · intro n hn hpos
    have hne : (n != 0) = true := bne_iff_ne.mpr (by omega)
    unfold buildArgs turnsSegment
    rw [hn]
    cases hs : options.jsonSchema.isSome <;>
      simp [hs, hne, MIN_TURNS_WITH_SCHEMA, DEFAULT_TURNS] <;> rfl
  · intro hn
    unfold buildArgs turnsSegment
    rw [hn]
    simp
  · intro hn hcol hmem
    obtain ⟨hp, hm, hsid, hsp⟩ := hcol
    unfold buildArgs turnsSegment at hmem
    rw [hn, List.append_nil] at hmem
    unfold buildArgsNoTurns at hmem
    rw [List.mem_append, List.mem_append, List.mem_append, List.mem_append] at hmem
    rcases hmem with ((((h | h) | h) | h) | h)
    · rcases List.mem_cons.mp h with h | h
      · exact absurd h (by decide)
      · rcases List.mem_cons.mp h with h | h
        · exact hp h.symm
        · rcases List.mem_cons.mp h with h | h
          · exact absurd h (by decide)
          · rcases List.mem_cons.mp h with h | h
            · exact absurd h (by decide)
            · simp at h
    · exact maxturns_not_mem_opt_segment "--model" options.model (by decide) hm h
    · exact maxturns_not_mem_opt_segment "-r" options.sessionId (by decide) hsid h
    · exact maxturns_not_mem_opt_segment "--system-prompt" options.systemPrompt
        (by decide) hsp h
    · exact maxturns_not_mem_schema_segment options.jsonSchema h

/-- C3 witness: expand-style options (schema supplied, budget 50000)
yield an argument list ending in the max-turns flag valued "2". -/
theorem buildArgs_maxTurns_witness :
    buildArgs c3Options = buildArgsNoTurns c3Options ++ ["--max-turns", "2"] :=
  ((buildArgs_maxTurns_spec c3Options).1 50000 rfl (by norm_num)).trans (by rfl)

/-- C4: whenever the first structured-output match among assistant
messages carries an input object, the extracted text is the compact
serialization of that object, regardless of any result message present in
the array. -/
theorem structured_output_priority (messages : List Json)
    (fields : List (String × Json))
    (h : findFirstStructInput messages = some (Json.obj fields)) :
    textOf messages = Json.str ((Json.obj fields).stringifyCompact) := by
  have he := extractStructuredOutput_eq_find messages
  rw [h] at he
  have ht : (Json.str ((Json.obj fields).stringifyCompact)).truthy = true :=
    bne_iff_ne.mpr (obj_stringify_ne_empty fields)
  unfold textOf
  rw [he]
  simp [jsOr, ht]

/-- C4 witness: an array with a StructuredOutput block (input text:
"hello") and a result message extracts the compact serialization of the
input, not the result field. -/
theorem structured_output_priority_witness :
    textOf c4Msgs = Json.str "\x7b\"text\":\"hello\"\x7d" := by
  rw [structured_output_priority c4Msgs [("text", Json.str "hello")] rfl]
  rfl

/-- C5: on messages whose session_id fields are well typed (absent, null,
or string), the response's session id is the session identifier of the
first system-type message carrying a non-empty session id string, or null
when no such message exists; the earliest one wins. -/
theorem session_extraction_first_system (messages : List Json)
    (hw : ∀ m ∈ messages, sessionFieldWellTyped m = true) :
    sessionIdOf messages =
      match messages.find? claimSessionPred with
      | some m => m.getField "session_id"
      | none => Json.null := by
  induction messages with
  | nil => rfl
  | cons m rest ih =>
    have hm := hw m (List.mem_cons_self ..)
    have hr := fun x hx => hw x (List.mem_cons_of_mem _ hx)
    have hpred : isSystemWithSession m = claimSessionPred m := by
      unfold isSystemWithSession claimSessionPred
      unfold sessionFieldWellTyped at hm
      cases hfield : m.getField "session_id" <;> rw [hfield] at hm <;>
        simp_all [Json.truthy]
    unfold sessionIdOf at ih ⊢
    simp only [List.find?]
    rw [hpred]
    cases hc : claimSessionPred m
    · simpa using ih hr
    · have hstr : ∃ s, m.getField "session_id" = Json.str s ∧ (s != "") = true := by
        unfold claimSessionPred at hc
        unfold sessionFieldWellTyped at hm
        cases hfield : m.getField "session_id" <;> rw [hfield] at hc hm <;> simp_all
      obtain ⟨s, hs, _⟩ := hstr
      simp [hs, jsNullish]

/-- C5 witness: with two system messages carrying ids "s1" then "s2", the
first one wins. -/
theorem session_extraction_first_system_witness :
    sessionIdOf c5Msgs = Json.str "s1" := by
  rw [session_extraction_first_system c5Msgs (by decide)]
  rfl

/-- C6: parsing fails with the invalid-JSON error when `JSON.parse`
throws, fails with the distinct empty-array error on an empty array, and
wraps a bare object into a one-element array and proceeds. -/
theorem parse_failure_modes :
    parseResponse none = Except.error ParseError.invalidJson
    ∧ parseResponse (some (Json.arr [])) = Except.error ParseError.emptyArray
    ∧ ParseError.invalidJson ≠ ParseError.emptyArray
    ∧ ∀ fields, ∃ r, parseResponse (some (Json.obj fields)) = Except.ok r
        ∧ r.raw = [Json.obj fields] := by
  refine ⟨rfl, rfl, by decide, fun fields => ⟨_, rfl, rfl⟩⟩

/-- C7 counterexample: an assistant message whose single text block
carries the empty string. The claim's collection contains that empty
field, so its join is the empty string, but the code skips falsy text
fields and lands on the sentinel instead of the empty string. -/
theorem assistant_text_counterexample :
    specAllTextFields [c7Msg] = [""]
    ∧ joinSep (specAllTextFields [c7Msg]) = ""
    ∧ extractStructuredOutput [c7Msg] = Json.null
    ∧ resultFieldOf [c7Msg] = Json.undefined
    ∧ textOf [c7Msg] = Json.str "(No text in response)"
    ∧ Json.str "(No text in response)" ≠ Json.str "" := by
  refine ⟨rfl, rfl, rfl, rfl, rfl, ?_⟩
  intro h
  injection h with h'
  exact absurd h' (by decide)

/-- C7 amended: when neither the structured-output extraction nor the
last result message yields anything, the extracted text is the join (by
newlines, in original order) of the non-empty text fields of text-type
blocks across assistant messages, and the sentinel when no non-empty
text field exists. -/
theorem assistant_text_fallback (messages : List Json)
    (hstruct : extractStructuredOutput messages = Json.null)
    (hres : (resultFieldOf messages).truthy = false)
    (hwt : ∀ m ∈ messages, ∀ b ∈ ((m.getField "message").getField "content").elems,
      textFieldWellTyped b = true) :
    textOf messages =
      Json.str (if specNonEmptyTextFields messages = [] then "(No text in response)"
                else joinSep (specNonEmptyTextFields messages)) := by
  have h1 : textOf messages = Json.str (extractTextFromContent messages) := by
    have h0 : jsOr Json.null (resultFieldOf messages) = resultFieldOf messages := rfl
    unfold textOf
    rw [hstruct, h0]
    unfold jsOr
    rw [hres]
    simp
  rw [h1]
  congr 1
  unfold extractTextFromContent
  rw [textBlocksOf_spec messages hwt]
  by_cases hempty : specNonEmptyTextFields messages = []
  · simp [hempty, joinSep]
  · have hne := joinSep_ne_empty _ (specNonEmptyTextFields_ne messages) hempty
    rw [if_neg (by simpa using hne), if_neg hempty]

/-- C7 amended, witness: one assistant message with text blocks "A" and
"B" extracts to "A\nB". -/
theorem assistant_text_fallback_witness :
    textOf [c7wMsg] = Json.str "A\nB" := by
  rw [assistant_text_fallback [c7wMsg] rfl rfl (by decide)]
  rfl

/-- C8: writing a session id and reading it back returns the same string;
clearing and reading returns absence; both operations leave every other
frontmatter key untouched. -/
theorem session_roundtrip (fm : FrontMatter) (sid : String) (k : String)
    (hk : k ≠ SESSION_KEY) :
    getSessionId (setSessionId fm sid) = some sid
    ∧ getSessionId (clearSession fm) = none
    ∧ fmLookup (setSessionId fm sid) k = fmLookup fm k
    ∧ fmLookup (clearSession fm) k = fmLookup fm k := by
  refine ⟨?_, ?_, fmLookup_set_other fm SESSION_KEY k _ hk,
    fmLookup_del_other fm SESSION_KEY k hk⟩
  · unfold getSessionId setSessionId
    rw [fmLookup_set_same]
  · unfold getSessionId clearSession
    rw [fmLookup_del_same]

/-- C8 witness: round-trip on a note with an unrelated `title` field. -/
theorem session_roundtrip_witness :
    getSessionId (setSessionId [("title", Json.str "note")] "abc123") = some "abc123"
    ∧ getSessionId (clearSession [("title", Json.str "note")]) = none
    ∧ fmLookup (setSessionId [("title", Json.str "note")] "abc123") "title"
        = fmLookup [("title", Json.str "note")] "title"
    ∧ fmLookup (clearSession [("title", Json.str "note")]) "title"
        = fmLookup [("title", Json.str "note")] "title" :=
  session_roundtrip [("title", Json.str "note")] "abc123" "title" (by decide)

/-- C9: when the session field holds a non-string value, `getSessionId`
returns null rather than that value. -/
theorem getSessionId_non_string (fm : FrontMatter) (v : Json)
    (hv : fmLookup fm SESSION_KEY = some v) (hns : ∀ s, v ≠ Json.str s) :
    getSessionId fm = none := by
  unfold getSessionId
  rw [hv]
  cases v
  case str s => exact absurd rfl (hns s)
  all_goals rfl

/-- C9 witness: a frontmatter whose session field holds the number 42. -/
theorem getSessionId_non_string_witness :
    getSessionId [("claude_session", Json.num 42)] = none :=
  getSessionId_non_string [("claude_session", Json.num 42)] (Json.num 42) rfl
    (fun _ h => Json.noConfusion h)

/-- C10: a stdout that decodes to a bare JSON number, string, or boolean
is wrapped into a one-element array and parses successfully with a null
session id and the sentinel text. -/
theorem scalar_wrapping (n : Int) (s : String) (b : Bool) :
    parseResponse (some (Json.num n))
      = Except.ok ⟨Json.null, Json.str "(No text in response)", [Json.num n]⟩
    ∧ parseResponse (some (Json.str s))
      = Except.ok ⟨Json.null, Json.str "(No text in response)", [Json.str s]⟩
    ∧ parseResponse (some (Json.bool b))
      = Except.ok ⟨Json.null, Json.str "(No text in response)", [Json.bool b]⟩ :=
  ⟨rfl, rfl, rfl⟩

end ClaudeBridge
